import Mathlib

/-!
Verification development for the webxperts-backend repository.

The definitions below are a shallow embedding of the dashboard aggregation
logic (`api/dashboard/index.js`) and of the one-off / recurring sales PUT
handlers (`api/oneoff-sales/index.js`, `api/recurring-sales/index.js`).

Modelling conventions:
* JavaScript numbers are modelled by `JNum`: exact rationals extended with
  NaN and the two infinities.  Rounding/overflow of IEEE doubles is
  idealised away (none of the verified properties depend on rounding); the
  special values NaN/±∞ and JavaScript truthiness are modelled exactly.
* A JavaScript `Date` holding a local midnight is modelled by `CalDate`
  (year, 0-based month, day of month).  The `Date(year, month, day)`
  constructor's field normalisation (month overflow, day 0 = last day of
  the previous month, etc.) is implemented by `jsDate` / `normDays`, and
  `Date` comparison (timestamp order) by lexicographic order `CalDate.leb`,
  which coincides with timestamp order on midnight dates.
* Database row fields that may be SQL NULL are modelled with `Option`.
-/

/-- A JavaScript number: an exact rational, NaN, or one of the two
infinities. -/
inductive JNum where
  | fin (q : ℚ)
  | nan
  | inf
  | ninf
deriving DecidableEq, Repr

/-- JavaScript `+` on numbers (NaN propagates, `∞ + (-∞) = NaN`). -/
def jsAdd : JNum → JNum → JNum
  | .nan, _ => .nan
  | _, .nan => .nan
  | .inf, .ninf => .nan
  | .ninf, .inf => .nan
  | .inf, _ => .inf
  | _, .inf => .inf
  | .ninf, _ => .ninf
  | _, .ninf => .ninf
  | .fin a, .fin b => .fin (a + b)

/-- JavaScript `*` on numbers (NaN propagates, `±∞ * 0 = NaN`, signs of
infinities follow the sign of the finite factor). -/
def jsMul : JNum → JNum → JNum
  | .nan, _ => .nan
  | _, .nan => .nan
  | .fin a, .fin b => .fin (a * b)
  | .inf, .inf => .inf
  | .inf, .ninf => .ninf
  | .ninf, .inf => .ninf
  | .ninf, .ninf => .inf
  | .inf, .fin b => if 0 < b then .inf else if b < 0 then .ninf else .nan
  | .fin a, .inf => if 0 < a then .inf else if a < 0 then .ninf else .nan
  | .ninf, .fin b => if 0 < b then .ninf else if b < 0 then .inf else .nan
  | .fin a, .ninf => if 0 < a then .ninf else if a < 0 then .inf else .nan

/-- JavaScript truthiness of a number: NaN and 0 are falsy, everything else
(including the infinities) is truthy. -/
def truthyNum : JNum → Bool
  | .fin q => decide (q ≠ 0)
  | .nan => false
  | .inf => true
  | .ninf => true

/-- A JSON-shaped JavaScript value, as found in a parsed request body or a
database row field. -/
inductive JVal where
  | null
  | str (s : String)
  | num (n : JNum)
  | boolean (b : Bool)
deriving DecidableEq, Repr

/-- JavaScript truthiness of a `JVal` (`null`, `""`, `0`, `NaN`, `false`
are falsy). -/
def truthyJV : JVal → Bool
  | .null => false
  | .str s => decide (s ≠ "")
  | .num n => truthyNum n
  | .boolean b => b

/-- A calendar date: the value of a JavaScript `Date` at local midnight.
`month` is 0-based (0 = January), exactly as returned by `getMonth()`. -/
structure CalDate where
  year : Int
  month : Nat
  day : Nat
deriving DecidableEq, Repr

/-- Gregorian leap-year rule, as implemented by JavaScript `Date`. -/
def isLeap (y : Int) : Bool :=
  (y % 4 == 0 && y % 100 != 0) || y % 400 == 0

/-- Number of days of month `m` (0-based) of year `y`. -/
def daysInMonth (y : Int) (m : Nat) : Nat :=
  if m = 1 then (if isLeap y then 29 else 28)
  else if m = 3 ∨ m = 5 ∨ m = 8 ∨ m = 10 then 30
  else 31

theorem daysInMonth_ge (y : Int) (m : Nat) : 28 ≤ daysInMonth y m := by
  unfold daysInMonth
  split
  · split <;> omega
  · split <;> omega

theorem daysInMonth_le (y : Int) (m : Nat) : daysInMonth y m ≤ 31 := by
  unfold daysInMonth
  split
  · split <;> omega
  · split <;> omega

/-- Day-of-month normalisation of the JavaScript `Date(y, m, d)`
constructor, for a 0-based month `m < 12` already in range: day values
below 1 borrow from earlier months, day values above the month length
carry into later months. -/
def normDays (y : Int) (m : Nat) (d : Int) : CalDate :=
  if h1 : d < 1 then
    normDays (if m = 0 then y - 1 else y) (if m = 0 then 11 else m - 1)
      (d + daysInMonth (if m = 0 then y - 1 else y) (if m = 0 then 11 else m - 1))
  else if h2 : (daysInMonth y m : Int) < d then
    normDays (if m = 11 then y + 1 else y) (if m = 11 then 0 else m + 1)
      (d - daysInMonth y m)
  else
    ⟨y, m, d.toNat⟩
termination_by (if d < 1 then (62 - d).toNat else d.toNat)
decreasing_by
  · rw [if_pos h1]
    have h1ge := daysInMonth_ge (y - 1) 11
    have h1le := daysInMonth_le (y - 1) 11
    have h2ge := daysInMonth_ge y (m - 1)
    have h2le := daysInMonth_le y (m - 1)
    split <;> split <;> omega
  · rw [if_neg h1]
    have hge := daysInMonth_ge y m
    have hle := daysInMonth_le y m
    split <;> omega

/-- The JavaScript `new Date(y, m, d)` constructor at day granularity:
months are normalised with floor division (for the positive divisor 12,
Euclidean `/` and `%` on `Int` coincide with floor division and its
remainder), then the day offset is normalised by `normDays`. -/
def jsDate (y m d : Int) : CalDate :=
  normDays (y + m / 12) (m % 12).toNat d

/-- JavaScript `Date` comparison (`<=` on timestamps); for midnight local
dates this is lexicographic order on (year, month, day). -/
def CalDate.leb (a b : CalDate) : Bool :=
  a.year < b.year ||
    (a.year == b.year &&
      (a.month < b.month || (a.month == b.month && a.day ≤ b.day)))

/-- Linearised month index `year * 12 + month` of a date. -/
def monthIdx (c : CalDate) : Int :=
  c.year * 12 + c.month

/-- A well-formed calendar date: month in 0..11 and day within the month. -/
def CalDate.Valid (c : CalDate) : Prop :=
  c.month < 12 ∧ 1 ≤ c.day ∧ c.day ≤ daysInMonth c.year c.month

instance (c : CalDate) : Decidable c.Valid := by
  unfold CalDate.Valid; infer_instance

/-- Function `firstOfMonth` from api/dashboard/index.js:
`new Date(d.getFullYear(), d.getMonth(), 1)`. -/
def firstOfMonth (d : CalDate) : CalDate :=
  jsDate d.year d.month 1

/-- Function `lastOfMonth` from api/dashboard/index.js:
`new Date(d.getFullYear(), d.getMonth() + 1, 0)`. -/
def lastOfMonth (d : CalDate) : CalDate :=
  jsDate d.year (d.month + 1) 0

/-- Function `fyStartFor` from api/dashboard/index.js: the fiscal year starts
April 1; dates before April belong to the fiscal year that started the
previous calendar year. -/
def fyStartFor (d : CalDate) : CalDate :=
  jsDate (if 3 ≤ d.month then d.year else d.year - 1) 3 1

/-- The first day of the month with linear index `i` (spec-side helper:
`i = year * 12 + month`). -/
def monthFirst (i : Int) : CalDate :=
  ⟨i / 12, (i % 12).toNat, 1⟩

/-- The list of the firsts of `n` consecutive months starting at month
index `start` (spec-side helper used to state the iteration claims). -/
def monthRange (start : Int) (n : Nat) : List CalDate :=
  (List.range n).map (fun (k : Nat) => monthFirst (start + (k : Int)))

/-- The calendar day immediately after `d` (spec-side helper: "one day
later"). -/
def nextDay (d : CalDate) : CalDate :=
  jsDate d.year d.month ((d.day : Int) + 1)

theorem normDays_terminal (y : Int) (m : Nat) (d : Int)
    (h1 : 1 ≤ d) (h2 : d ≤ daysInMonth y m) :
    normDays y m d = ⟨y, m, d.toNat⟩ := by
  rw [normDays]
  rw [dif_neg (by omega)]
  rw [dif_neg (by omega)]

theorem monthFirst_eq (y : Int) (m : Nat) (h : m < 12) :
    monthFirst (y * 12 + m) = ⟨y, m, 1⟩ := by
  unfold monthFirst
  have e1 : (y * 12 + (m : Int)) / 12 = y := by omega
  have e2 : ((y * 12 + (m : Int)) % 12).toNat = m := by omega
  rw [e1, e2]

theorem monthIdx_monthFirst (i : Int) : monthIdx (monthFirst i) = i := by
  simp only [monthIdx, monthFirst]
  omega

theorem monthFirst_month_lt (i : Int) : (monthFirst i).month < 12 := by
  simp only [monthFirst]
  omega

theorem jsDate_one (y m : Int) : jsDate y m 1 = monthFirst (y * 12 + m) := by
  unfold jsDate monthFirst
  have hge := daysInMonth_ge (y + m / 12) (m % 12).toNat
  rw [normDays_terminal _ _ _ (by omega) (by omega)]
  have e1 : y + m / 12 = (y * 12 + m) / 12 := by omega
  have e2 : (m % 12).toNat = ((y * 12 + m) % 12).toNat := by omega
  rw [e1, e2, Int.toNat_one]

theorem jsDate_zero (y m : Int) :
    jsDate y m 0 =
      ⟨(y * 12 + m - 1) / 12, ((y * 12 + m - 1) % 12).toNat,
        daysInMonth ((y * 12 + m - 1) / 12) ((y * 12 + m - 1) % 12).toNat⟩ := by
  unfold jsDate
  rw [normDays]
  rw [dif_pos (by norm_num : (0 : Int) < 1)]
  by_cases hM : ((m % 12).toNat) = 0
  · simp only [if_pos hM]
    have hge := daysInMonth_ge (y + m / 12 - 1) 11
    have hle := daysInMonth_le (y + m / 12 - 1) 11
    rw [normDays_terminal _ _ _ (by omega) (by omega)]
    have e1 : y + m / 12 - 1 = (y * 12 + m - 1) / 12 := by omega
    have e2 : (11 : Nat) = ((y * 12 + m - 1) % 12).toNat := by omega
    have e0 : (0 + (daysInMonth ((y * 12 + m - 1) / 12) ((y * 12 + m - 1) % 12).toNat : Int)).toNat
        = daysInMonth ((y * 12 + m - 1) / 12) ((y * 12 + m - 1) % 12).toNat := by omega
    rw [e1, e2, e0]
  · simp only [if_neg hM]
    have hge := daysInMonth_ge (y + m / 12) ((m % 12).toNat - 1)
    have hle := daysInMonth_le (y + m / 12) ((m % 12).toNat - 1)
    rw [normDays_terminal _ _ _ (by omega) (by omega)]
    have e1 : y + m / 12 = (y * 12 + m - 1) / 12 := by omega
    have e2 : (m % 12).toNat - 1 = ((y * 12 + m - 1) % 12).toNat := by omega
    have e0 : (0 + (daysInMonth ((y * 12 + m - 1) / 12) ((y * 12 + m - 1) % 12).toNat : Int)).toNat
        = daysInMonth ((y * 12 + m - 1) / 12) ((y * 12 + m - 1) % 12).toNat := by omega
    rw [e1, e2, e0]

theorem firstOfMonth_eq (c : CalDate) (h : c.month < 12) :
    firstOfMonth c = ⟨c.year, c.month, 1⟩ := by
  unfold firstOfMonth
  rw [jsDate_one, monthFirst_eq _ _ h]

theorem lastOfMonth_eq (c : CalDate) (h : c.month < 12) :
    lastOfMonth c = ⟨c.year, c.month, daysInMonth c.year c.month⟩ := by
  unfold lastOfMonth
  rw [jsDate_zero]
  have e1 : c.year * 12 + ((c.month : Int) + 1) - 1 = c.year * 12 + c.month := by
    omega
  rw [e1]
  have e2 : (c.year * 12 + (c.month : Int)) / 12 = c.year := by omega
  have e3 : ((c.year * 12 + (c.month : Int)) % 12).toNat = c.month := by omega
  rw [e2, e3]

theorem fyStartFor_eq (d : CalDate) :
    fyStartFor d = ⟨if 3 ≤ d.month then d.year else d.year - 1, 3, 1⟩ := by
  unfold fyStartFor
  rw [jsDate_one]
  by_cases h3 : 3 ≤ d.month
  · simp only [if_pos h3]
    unfold monthFirst
    have e1 : (d.year * 12 + 3) / 12 = d.year := by omega
    have e2 : ((d.year * 12 + 3) % 12).toNat = 3 := by omega
    rw [e1, e2]
  · simp only [if_neg h3]
    unfold monthFirst
    have e1 : ((d.year - 1) * 12 + 3) / 12 = d.year - 1 := by omega
    have e2 : (((d.year - 1) * 12 + 3) % 12).toNat = 3 := by omega
    rw [e1, e2]

theorem nextDay_of_last (y : Int) (m : Nat) (hm : m < 12) :
    nextDay ⟨y, m, daysInMonth y m⟩ = monthFirst (y * 12 + m + 1) := by
  show jsDate y (m : Int) (((daysInMonth y m : Nat) : Int) + 1) = monthFirst (y * 12 + m + 1)
  unfold jsDate
  have e1 : y + (m : Int) / 12 = y := by omega
  have e2 : (((m : Int)) % 12).toNat = m := by omega
  rw [e1, e2, normDays]
  have hge := daysInMonth_ge y m
  rw [dif_neg (by omega)]
  rw [dif_pos (by omega)]
  by_cases h11 : m = 11
  · simp only [if_pos h11]
    have h1ge := daysInMonth_ge (y + 1) 0
    rw [normDays_terminal _ _ _ (by omega) (by omega)]
    subst h11
    unfold monthFirst
    have f0 : (((daysInMonth y 11 : Nat) : Int) + 1 - (daysInMonth y 11 : Nat)).toNat = 1 := by
      omega
    have f1 : (y * 12 + ((11 : Nat) : Int) + 1) / 12 = y + 1 := by omega
    have f2 : ((y * 12 + ((11 : Nat) : Int) + 1) % 12).toNat = 0 := by omega
    rw [f0, f1, f2]
  · simp only [if_neg h11]
    have h1ge := daysInMonth_ge y (m + 1)
    rw [normDays_terminal _ _ _ (by omega) (by omega)]
    unfold monthFirst
    have f0 : (((daysInMonth y m : Nat) : Int) + 1 - (daysInMonth y m : Nat)).toNat = 1 := by
      omega
    have f1 : (y * 12 + (m : Int) + 1) / 12 = y := by omega
    have f2 : ((y * 12 + (m : Int) + 1) % 12).toNat = m + 1 := by omega
    rw [f0, f1, f2]

theorem leb_iff_monthIdx (a b : CalDate) (hma : a.month < 12)
    (hmb : b.month < 12) (hda : a.day = 1) (hdb : 1 ≤ b.day) :
    a.leb b = true ↔ monthIdx a ≤ monthIdx b := by
  simp only [CalDate.leb, monthIdx, Bool.or_eq_true, Bool.and_eq_true,
    decide_eq_true_eq, beq_iff_eq]
  omega

/-- ASCII lower-casing of a character (models `toLowerCase`/SQL `LOWER` on
the ASCII field values handled by this backend). -/
def lowerChar (c : Char) : Char :=
  if 'A' ≤ c ∧ c ≤ 'Z' then Char.ofNat (c.toNat + 32) else c

/-- ASCII lower-casing of a string. -/
def lowerStr (s : String) : String :=
  ⟨s.data.map lowerChar⟩

/-- SQL `TRIM`: strip leading and trailing space characters. -/
def trimSpaces (s : String) : String :=
  ⟨((s.data.dropWhile (· = ' ')).reverse.dropWhile (· = ' ')).reverse⟩

/-- A row of the recurring_sales table as fetched by the dashboard handler.
`amount`, `quantity`, `unit_amount` hold the JavaScript number the stored
value converts to under `Number(·)` (`none` = SQL NULL; `JNum.nan` = a
non-numeric stored value); the dates arrive as `Date` objects or NULL,
`active` as a nullable integer flag, `billing_cycle` as a nullable
string. -/
structure RecRow where
  amount : Option JNum
  quantity : Option JNum
  unit_amount : Option JNum
  start_date : Option CalDate
  end_date : Option CalDate
  active : Option Int
  billing_cycle : Option String
deriving DecidableEq, Repr

/-- Function `isActiveInMonth` from api/dashboard/index.js.  `rec.start_date ?
new Date(rec.start_date) : null` is the identity on our `Option CalDate`
fields (a `Date` field is always truthy, NULL is falsy);
`rec.billing_cycle || "monthly"` falls back to "monthly" on NULL and on
the empty string (the falsy strings). -/
def isActiveInMonth (rec : RecRow) (monthDate : CalDate) : Bool :=
  let start := rec.start_date
  let stop := rec.end_date
  let mStart := firstOfMonth monthDate
  let mEnd := lastOfMonth monthDate
  let activeFlag := rec.active == none || rec.active == some 1
  let afterStart := match start with
    | none => true
    | some s => s.leb mEnd
  let beforeEnd := match stop with
    | none => true
    | some e => mStart.leb e
  let cycleOk :=
    lowerStr (match rec.billing_cycle with
      | none => "monthly"
      | some s => if s = "" then "monthly" else s) == "monthly"
  activeFlag && cycleOk && afterStart && beforeEnd

/-- Evaluation of `Number(x || 0)` for a nullable stored field `x`: NULL (and any falsy
numeric image) gives 0, otherwise the numeric image of the value. -/
def optOrZero : Option JNum → JNum
  | none => .fin 0
  | some n => if truthyNum n then n else .fin 0

/-- Function `rowAmount` from api/dashboard/index.js:
`(r.amount != null ? Number(r.amount) : Number(r.quantity || 0) *
Number(r.unit_amount || 0)) || 0`. -/
def rowAmount (r : RecRow) : JNum :=
  let v := match r.amount with
    | some a => a
    | none => jsMul (optOrZero r.quantity) (optOrZero r.unit_amount)
  if truthyNum v then v else .fin 0

/-- The activity predicate exactly as claim C1 words it: the billing cycle
defaults to "monthly" only when the field is absent. -/
def claimActiveInMonth (rec : RecRow) (monthDate : CalDate) : Bool :=
  let activeFlag := rec.active == none || rec.active == some 1
  let cycleOk := lowerStr (rec.billing_cycle.getD "monthly") == "monthly"
  let afterStart := match rec.start_date with
    | none => true
    | some s => s.leb (lastOfMonth monthDate)
  let beforeEnd := match rec.end_date with
    | none => true
    | some e => (firstOfMonth monthDate).leb e
  activeFlag && cycleOk && afterStart && beforeEnd

/-- The activity predicate as claim C1 amended: the billing cycle defaults
to "monthly" when the field is absent or blank. -/
def claimActiveInMonthBlank (rec : RecRow) (monthDate : CalDate) : Bool :=
  let activeFlag := rec.active == none || rec.active == some 1
  let cycleOk :=
    lowerStr (if rec.billing_cycle = none ∨ rec.billing_cycle = some "" then
      "monthly" else rec.billing_cycle.getD "monthly") == "monthly"
  let afterStart := match rec.start_date with
    | none => true
    | some s => s.leb (lastOfMonth monthDate)
  let beforeEnd := match rec.end_date with
    | none => true
    | some e => (firstOfMonth monthDate).leb e
  activeFlag && cycleOk && afterStart && beforeEnd

/-- The effective-amount rule exactly as claim C5 words it: `amount` when
non-null, else quantity times unit amount with absent fields defaulting
to 0, and any result that is not a finite number replaced by 0. -/
def claimEffectiveAmount (r : RecRow) : JNum :=
  let v := match r.amount with
    | some a => a
    | none => jsMul (r.quantity.getD (.fin 0)) (r.unit_amount.getD (.fin 0))
  match v with
  | .fin q => .fin q
  | _ => .fin 0

/-- The effective-amount rule as claim C5 amended: only a NaN result is
replaced by 0; infinite results are returned unchanged. -/
def claimEffectiveAmountNaN (r : RecRow) : JNum :=
  let v := match r.amount with
    | some a => a
    | none => jsMul (r.quantity.getD (.fin 0)) (r.unit_amount.getD (.fin 0))
  if v = .nan then .fin 0 else v

/-- Function `sumRecurringForMonth` from the dashboard handler. -/
def sumRecurringForMonth (recurring : List RecRow) (monthDate : CalDate) : JNum :=
  (recurring.filter (fun r => isActiveInMonth r monthDate)).foldl
    (fun a r => jsAdd a (rowAmount r)) (.fin 0)

/-- The recurring-YTD `for` loop of the dashboard handler:
`for (cursor = firstOfMonth(fyStart); cursor <= eMonth;
cursor = new Date(cursor.getFullYear(), cursor.getMonth()+1, 1))
recurringYTD += sumRecurringForMonth(cursor)`. -/
def recurringYTDgo (recurring : List RecRow) (eMonth cursor : CalDate)
    (acc : JNum) : JNum :=
  if h : cursor.leb eMonth then
    recurringYTDgo recurring eMonth
      (jsDate cursor.year ((cursor.month : Int) + 1) 1)
      (jsAdd acc (sumRecurringForMonth recurring cursor))
  else acc
termination_by ((eMonth.year + 1 - cursor.year).toNat, eMonth.month + 13 - cursor.month)
decreasing_by
  rw [jsDate_one]
  simp only [CalDate.leb, Bool.or_eq_true, Bool.and_eq_true, decide_eq_true_eq,
    beq_iff_eq] at h
  simp only [monthFirst, Prod.lex_iff]
  omega

/-- Value `recurringYTD` as computed by the dashboard handler at time `now`. -/
def recurringYTDof (recurring : List RecRow) (now : CalDate) : JNum :=
  recurringYTDgo recurring (lastOfMonth now) (firstOfMonth (fyStartFor now)) (.fin 0)

/-- The remaining-fiscal-months computation of the dashboard handler:
`(m <= 2) ? (2 - m) : (14 - m)` for the zero-based month index `m`. -/
def monthsLeft (m : Nat) : Nat :=
  if m ≤ 2 then 2 - m else 14 - m

/-- The projection `for` loop of the dashboard handler: step `n` times from
`cursor`, accumulating `sumRecurringForMonth`. -/
def projLoop (recurring : List RecRow) : Nat → CalDate → JNum → JNum
  | 0, _, acc => acc
  | n + 1, cursor, acc =>
    projLoop recurring n (jsDate cursor.year ((cursor.month : Int) + 1) 1)
      (jsAdd acc (sumRecurringForMonth recurring cursor))

/-- Value `projection` as computed by the dashboard handler at time `now`
(cursor starts at the first of the month after `now`). -/
def projectionOf (recurring : List RecRow) (now : CalDate) : JNum :=
  projLoop recurring (monthsLeft now.month)
    (jsDate now.year ((now.month : Int) + 1) 1) (.fin 0)

/-- Computation `expectedIncome = ytd + projection` from the dashboard handler. -/
def expectedIncomeOf (recurring : List RecRow) (now : CalDate) (ytd : JNum) : JNum :=
  jsAdd ytd (projectionOf recurring now)

theorem monthRange_succ (i : Int) (n : Nat) :
    monthRange i (n + 1) = monthFirst i :: monthRange (i + 1) n := by
  unfold monthRange
  rw [List.range_succ_eq_map]
  rw [List.map_cons, List.map_map]
  rw [Nat.cast_zero, add_zero]
  congr 1
  apply List.map_congr_left
  intro k _
  simp only [Function.comp_apply]
  congr 1
  push_cast
  ring

theorem recurringYTDgo_spec (recurring : List RecRow) (eMonth : CalDate)
    (hE : eMonth.month < 12) (hEd : 1 ≤ eMonth.day) :
    ∀ (n : Nat) (i : Int) (acc : JNum),
      (monthIdx eMonth + 1 - i).toNat = n →
      recurringYTDgo recurring eMonth (monthFirst i) acc =
        (monthRange i n).foldl
          (fun a m => jsAdd a (sumRecurringForMonth recurring m)) acc := by
  intro n
  induction n with
  | zero =>
    intro i acc hn
    rw [recurringYTDgo]
    have hguard : ¬ ((monthFirst i).leb eMonth = true) := by
      rw [leb_iff_monthIdx _ _ (monthFirst_month_lt i) hE rfl hEd,
        monthIdx_monthFirst]
      omega
    rw [dif_neg hguard]
    simp [monthRange]
  | succ k ih =>
    intro i acc hn
    rw [recurringYTDgo]
    have hguard : (monthFirst i).leb eMonth = true := by
      rw [leb_iff_monthIdx _ _ (monthFirst_month_lt i) hE rfl hEd,
        monthIdx_monthFirst]
      omega
    rw [dif_pos hguard]
    rw [jsDate_one]
    have e : (monthFirst i).year * 12 + (((monthFirst i).month : Int) + 1) = i + 1 := by
      simp only [monthFirst]
      omega
    rw [e]
    rw [ih (i + 1) _ (by omega)]
    rw [monthRange_succ, List.foldl_cons]

theorem projLoop_spec (recurring : List RecRow) :
    ∀ (n : Nat) (i : Int) (acc : JNum),
      projLoop recurring n (monthFirst i) acc =
        (monthRange i n).foldl
          (fun a m => jsAdd a (sumRecurringForMonth recurring m)) acc := by
  intro n
  induction n with
  | zero =>
    intro i acc
    simp [projLoop, monthRange]
  | succ k ih =>
    intro i acc
    rw [projLoop]
    rw [jsDate_one]
    have e : (monthFirst i).year * 12 + (((monthFirst i).month : Int) + 1) = i + 1 := by
      simp only [monthFirst]
      omega
    rw [e]
    rw [ih (i + 1) _]
    rw [monthRange_succ, List.foldl_cons]

/-- The status normalisation inside the activeClients WHERE clause of
api/dashboard/index.js: `COALESCE(NULLIF(TRIM(LOWER(status)), ''),
'active')`; the SQL functions propagate NULL, which COALESCE then maps to
'active'. -/
def sqlNormStatus : Option String → String
  | none => "active"
  | some s => if trimSpaces (lowerStr s) = "" then "active" else trimSpaces (lowerStr s)

/-- The WHERE filter of the activeClients count:
`... NOT IN ('inactive','archived','closed')`. -/
def activeClientPred (status : Option String) : Bool :=
  !(["inactive", "archived", "closed"].contains (sqlNormStatus status))

/-- Value `activeClients` of the dashboard: the SQL COUNT over the clients table
under the WHERE filter above. -/
def activeClientsCount (statuses : List (Option String)) : Nat :=
  (statuses.filter activeClientPred).length

/-- The client filter exactly as claim C6 words it: trimmed, lower-cased
status not in the excluded set; null or blank status counts as active. -/
def claimActiveClient (status : Option String) : Bool :=
  match status with
  | none => true
  | some s =>
    if trimSpaces (lowerStr s) = "" then true
    else !(["inactive", "archived", "closed"].contains (trimSpaces (lowerStr s)))

/-- The dashboard card values. -/
structure Cards where
  expectedIncome : JNum
  ytd : JNum
  monthlyIncome : JNum
  gstThisMonth : JNum
  draftsTotal : JNum
  activeClients : Nat
  openTasks : Nat
deriving DecidableEq, Repr

/-- Outcome of each storage fetch issued by the dashboard handler, in the
order the handler awaits them (`.error` = the query threw). -/
structure QueryOutcomes where
  oneoffYTD : Except String JNum
  oneoffThisMonth : Except String JNum
  draftsTotal : Except String JNum
  recurringRows : Except String (List RecRow)
  activeClients : Except String Nat
  openTasks : Except String Nat

/-- The handler's response: success with the cards, or the single catch-all
error response (which carries no dashboard fields). -/
inductive DashResponse where
  | ok (cards : Cards)
  | serverError (status : Nat) (message : String)
deriving DecidableEq, Repr

/-- The dashboard handler body of api/dashboard/index.js: each awaited
query either yields its value or throws; the first throw aborts the `try`
block and the `catch` returns a single 500 response.  `0.15` is modelled
by the exact rational 3/20 (the claims do not depend on its rounding). -/
def dashboardHandler (now : CalDate) (q : QueryOutcomes) : DashResponse :=
  match q.oneoffYTD with
  | .error e => .serverError 500 e
  | .ok oneoffYTD =>
  match q.oneoffThisMonth with
  | .error e => .serverError 500 e
  | .ok oneoffThisMonth =>
  match q.draftsTotal with
  | .error e => .serverError 500 e
  | .ok draftsTotal =>
  match q.recurringRows with
  | .error e => .serverError 500 e
  | .ok recurring =>
  match q.activeClients with
  | .error e => .serverError 500 e
  | .ok activeClients =>
  match q.openTasks with
  | .error e => .serverError 500 e
  | .ok openTasks =>
    let recurringYTD := recurringYTDof recurring now
    let recurringMonth := sumRecurringForMonth recurring now
    let ytd := jsAdd oneoffYTD recurringYTD
    let monthlyIncome := jsAdd oneoffThisMonth recurringMonth
    let gstThisMonth := jsMul monthlyIncome (.fin (15 / 100 : ℚ))
    let expectedIncome := expectedIncomeOf recurring now ytd
    .ok ⟨expectedIncome, ytd, monthlyIncome, gstThisMonth, draftsTotal,
      activeClients, openTasks⟩

/-- JavaScript object access `body[key]` on a parsed JSON object,
represented as its entry list in insertion order (on duplicate keys the
last occurrence wins, as in JSON parsing). -/
def bodyGet (body : List (String × JVal)) (key : String) : Option JVal :=
  (body.reverse.find? (fun kv => kv.1 == key)).map (fun kv => kv.2)

/-- Normalisation `(value === '' || value === undefined || value === null) ? null :
value` from the PUT handlers (a parsed JSON body cannot contain
`undefined`). -/
def jvNullify (v : JVal) : JVal :=
  if v = .str "" ∨ v = .null then .null else v

/-- The `updateData` object of the PUT handlers: body entries restricted
to the allow-list, values normalised by `jvNullify`; repeated keys
overwrite, so the last occurrence wins. -/
def buildUpdate (allowed : List String) (body : List (String × JVal)) :
    List (String × JVal) :=
  (body.filter (fun kv => allowed.contains kv.1)).map (fun kv => (kv.1, jvNullify kv.2))

/-- Effect of `UPDATE ... SET col = ?, ... WHERE id = ?` on a stored
record: listed columns take their new value, all other columns keep their
stored value. -/
def applyUpdate (stored : String → JVal) (upd : List (String × JVal)) :
    String → JVal :=
  fun col =>
    match upd.reverse.find? (fun kv => kv.1 == col) with
    | some kv => kv.2
    | none => stored col

/-- Decision taken by a PUT handler before touching the database. -/
inductive PutOutcome where
  | badRequest (message : String)
  | applied (upd : List (String × JVal))
deriving DecidableEq, Repr

/-- The common PUT shape of api/oneoff-sales/index.js and
api/recurring-sales/index.js: reject with 400 when the body has no truthy
`id`; build the allow-listed update set; reject with 400 when it is
empty; otherwise run the UPDATE. -/
def putUpdatePlan (allowed : List String) (body : List (String × JVal)) :
    PutOutcome :=
  if !(match bodyGet body "id" with
      | none => false
      | some v => truthyJV v) then
    .badRequest "ID required in body"
  else
    let upd := buildUpdate allowed body
    if upd.isEmpty then .badRequest "No valid fields to update"
    else .applied upd

/-- HTTP status and resulting stored record of a PUT against an existing
stored record: a 400 plan leaves the record untouched (the handler
returns before any database write). -/
def putRespond (allowed : List String) (body : List (String × JVal))
    (stored : String → JVal) : Nat × (String → JVal) :=
  match putUpdatePlan allowed body with
  | .badRequest _ => (400, stored)
  | .applied upd => (200, applyUpdate stored upd)

/-- The PUT allow-list of api/oneoff-sales/index.js. -/
def oneoffAllowedFields : List String :=
  ["description", "amount", "sale_date", "status", "quantity", "unit_amount",
    "notes"]

/-- The PUT allow-list of api/recurring-sales/index.js. -/
def recurringAllowedFields : List String :=
  ["description", "service_name", "amount", "start_date", "end_date",
    "product", "quantity", "unit_amount", "notes"]

/-- PUT on the one-off sales endpoint. -/
def oneoffPut : List (String × JVal) → (String → JVal) → Nat × (String → JVal) :=
  putRespond oneoffAllowedFields

/-- PUT on the recurring sales endpoint. -/
def recurringPut : List (String × JVal) → (String → JVal) → Nat × (String → JVal) :=
  putRespond recurringAllowedFields

/-- C4: for every valid calendar date `d`, `fyStartFor d` is April 1
(month index 3, day 1) of `d`'s year when `d` falls in April–December
(0-based month index ≥ 3), and April 1 of the previous year when `d`
falls in January–March. -/
theorem C4_fyStartFor (d : CalDate) (h : d.Valid) :
    (3 ≤ d.month → fyStartFor d = ⟨d.year, 3, 1⟩) ∧
    (d.month < 3 → fyStartFor d = ⟨d.year - 1, 3, 1⟩) := by
  constructor
  · intro h3
    rw [fyStartFor_eq, if_pos h3]
  · intro h3
    rw [fyStartFor_eq, if_neg (by omega)]

/-- C4 witness: the theorem applied at June 15 2025 and at February 10
2025. -/
theorem C4_fyStartFor_witness :
    fyStartFor ⟨2025, 5, 15⟩ = ⟨2025, 3, 1⟩ ∧
    fyStartFor ⟨2025, 1, 10⟩ = ⟨2024, 3, 1⟩ := by
  constructor
  · exact (C4_fyStartFor ⟨2025, 5, 15⟩ (by decide)).1 (by decide)
  · exact (C4_fyStartFor ⟨2025, 1, 10⟩ (by decide)).2 (by decide)

/-- C8: for every valid calendar date, `lastOfMonth` returns the final
calendar day of the date's month (the full month-length table, leap years
included); in particular February 2024 has 29 days and February 2023 has
28, and `lastOfMonth` maps dates in those months accordingly. -/
theorem C8_lastOfMonth (y : Int) (m day : Nat)
    (h : (⟨y, m, day⟩ : CalDate).Valid) :
    lastOfMonth ⟨y, m, day⟩ = ⟨y, m, daysInMonth y m⟩ ∧
    daysInMonth 2024 1 = 29 ∧ daysInMonth 2023 1 = 28 ∧
    lastOfMonth ⟨2024, 1, 10⟩ = ⟨2024, 1, 29⟩ ∧
    lastOfMonth ⟨2023, 1, 10⟩ = ⟨2023, 1, 28⟩ := by
  refine ⟨lastOfMonth_eq _ h.1, by decide, by decide, ?_, ?_⟩
  · rw [lastOfMonth_eq _ (by decide)]
    decide
  · rw [lastOfMonth_eq _ (by decide)]
    decide

/-- C8 witness: the theorem applied at a date of February 2024. -/
theorem C8_lastOfMonth_witness :
    lastOfMonth ⟨2024, 1, 10⟩ = ⟨2024, 1, daysInMonth 2024 1⟩ ∧
    daysInMonth 2024 1 = 29 := by
  have h := C8_lastOfMonth 2024 1 10 (by decide)
  exact ⟨h.1, h.2.1⟩

/-- C2: the recurring YTD computed by the dashboard loop equals the sum of
`sumRecurringForMonth` over exactly one month cursor per calendar month,
starting at the first of the fiscal-year-start month (April, month
index 3, of the current fiscal year) and ending with the current month
inclusive; the cursor list starts at April 1 and covers between 1 and 12
months. -/
theorem C2_recurringYTD (recurring : List RecRow) (now : CalDate)
    (h : now.Valid) :
    recurringYTDof recurring now =
      (monthRange ((if 3 ≤ now.month then now.year else now.year - 1) * 12 + 3)
          ((monthIdx now -
            ((if 3 ≤ now.month then now.year else now.year - 1) * 12 + 3) + 1).toNat)).foldl
        (fun a m => jsAdd a (sumRecurringForMonth recurring m)) (.fin 0) ∧
    monthFirst ((if 3 ≤ now.month then now.year else now.year - 1) * 12 + 3) =
      ⟨if 3 ≤ now.month then now.year else now.year - 1, 3, 1⟩ ∧
    1 ≤ monthIdx now - ((if 3 ≤ now.month then now.year else now.year - 1) * 12 + 3) + 1 ∧
    monthIdx now - ((if 3 ≤ now.month then now.year else now.year - 1) * 12 + 3) + 1 ≤ 12 := by
  obtain ⟨hm, hd1, hd2⟩ := h
  have hdim := daysInMonth_ge now.year now.month
  refine ⟨?_, ?_, ?_, ?_⟩
  · unfold recurringYTDof
    rw [fyStartFor_eq]
    unfold firstOfMonth
    rw [jsDate_one]
    rw [lastOfMonth_eq now hm]
    have harg : ((if 3 ≤ now.month then now.year else now.year - 1) : Int) * 12 +
        (((3 : Nat) : Int)) =
        (if 3 ≤ now.month then now.year else now.year - 1) * 12 + 3 := by
      norm_num
    rw [harg]
    rw [recurringYTDgo_spec recurring ⟨now.year, now.month, daysInMonth now.year now.month⟩
      hm (by simp only; omega) _ _ _ ?_]
    simp only [monthIdx]
    omega
  · by_cases h3 : 3 ≤ now.month
    · rw [if_pos h3]
      unfold monthFirst
      have e1 : ((now.year * 12 + 3) : Int) / 12 = now.year := by omega
      have e2 : (((now.year * 12 + 3) : Int) % 12).toNat = 3 := by omega
      rw [e1, e2]
    · rw [if_neg h3]
      unfold monthFirst
      have e1 : (((now.year - 1) * 12 + 3) : Int) / 12 = now.year - 1 := by omega
      have e2 : ((((now.year - 1) * 12 + 3) : Int) % 12).toNat = 3 := by omega
      rw [e1, e2]
  · by_cases h3 : 3 ≤ now.month
    · rw [if_pos h3]
      simp only [monthIdx]
      omega
    · rw [if_neg h3]
      simp only [monthIdx]
      omega
  · by_cases h3 : 3 ≤ now.month
    · rw [if_pos h3]
      simp only [monthIdx]
      omega
    · rw [if_neg h3]
      simp only [monthIdx]
      omega

/-- C2 witness: the theorem applied at June 15 2024 (fiscal year start
April 2024) with a single recurring row. -/
theorem C2_recurringYTD_witness :
    recurringYTDof [⟨some (.fin 100), none, none, none, none, none, none⟩]
        ⟨2024, 5, 15⟩ =
      (monthRange (2024 * 12 + 3) 3).foldl
        (fun a m => jsAdd a
          (sumRecurringForMonth
            [⟨some (.fin 100), none, none, none, none, none, none⟩] m)) (.fin 0) := by
  have h := C2_recurringYTD [⟨some (.fin 100), none, none, none, none, none, none⟩]
    ⟨2024, 5, 15⟩ (by decide)
  simpa using h.1

/-- C3: the dashboard computes `monthsLeft = 2 - m` for zero-based month
index `m ≤ 2` and `14 - m` otherwise; the projection sums
`sumRecurringForMonth` over exactly `monthsLeft` consecutive months
starting at the first of the month after `now` (recurring revenue only,
by construction); `expectedIncome = ytd + projection`; and for a `now` in
November (m = 10) the window is the 4 months December through March. -/
theorem C3_projection (recurring : List RecRow) (now : CalDate) (ytd : JNum)
    (h : now.Valid) :
    monthsLeft now.month =
      (if now.month ≤ 2 then 2 - now.month else 14 - now.month) ∧
    projectionOf recurring now =
      (monthRange (monthIdx now + 1) (monthsLeft now.month)).foldl
        (fun a m => jsAdd a (sumRecurringForMonth recurring m)) (.fin 0) ∧
    expectedIncomeOf recurring now ytd = jsAdd ytd (projectionOf recurring now) ∧
    (now.month = 10 →
      monthsLeft now.month = 4 ∧
      monthRange (monthIdx now + 1) (monthsLeft now.month) =
        [⟨now.year, 11, 1⟩, ⟨now.year + 1, 0, 1⟩, ⟨now.year + 1, 1, 1⟩,
          ⟨now.year + 1, 2, 1⟩]) := by
  refine ⟨rfl, ?_, rfl, ?_⟩
  · unfold projectionOf
    rw [jsDate_one]
    have e : now.year * 12 + ((now.month : Int) + 1) = monthIdx now + 1 := by
      simp only [monthIdx]
      ring
    rw [e, projLoop_spec]
  · intro h10
    have hml : monthsLeft now.month = 4 := by
      simp [monthsLeft, h10]
    refine ⟨hml, ?_⟩
    rw [hml]
    unfold monthRange
    rw [show List.range 4 = [0, 1, 2, 3] from rfl]
    simp only [List.map_cons, List.map_nil, List.cons.injEq, and_true,
      monthFirst, monthIdx, CalDate.mk.injEq]
    omega

/-- C3 witness: the theorem applied at November 15 2024: monthsLeft is 4
and the projection window is December 2024 through March 2025. -/
theorem C3_projection_witness :
    projectionOf [] ⟨2024, 10, 15⟩ =
      (monthRange (monthIdx ⟨2024, 10, 15⟩ + 1) (monthsLeft 10)).foldl
        (fun a m => jsAdd a (sumRecurringForMonth [] m)) (.fin 0) ∧
    monthsLeft 10 = 4 ∧
    monthRange (monthIdx ⟨2024, 10, 15⟩ + 1) (monthsLeft 10) =
      [⟨2024, 11, 1⟩, ⟨2025, 0, 1⟩, ⟨2025, 1, 1⟩, ⟨2025, 2, 1⟩] := by
  have h := C3_projection [] ⟨2024, 10, 15⟩ (.fin 0) (by decide)
  have h4 := h.2.2.2 rfl
  exact ⟨h.2.1, h4.1, h4.2⟩

theorem leb_refl (a : CalDate) : a.leb a = true := by
  simp [CalDate.leb]

/-- C1 counterexample: a record whose billing cycle is the empty string is
treated as monthly by `isActiveInMonth` (the `||` default applies to any
falsy string), while the claimed predicate — which defaults only when the
field is absent — rejects it.  So the claimed iff fails. -/
theorem C1_blank_cycle_cex :
    isActiveInMonth ⟨some (.fin 10), none, none, none, none, none, some ""⟩
        ⟨2024, 5, 15⟩ = true ∧
    claimActiveInMonth ⟨some (.fin 10), none, none, none, none, none, some ""⟩
        ⟨2024, 5, 15⟩ = false := by
  constructor
  · decide
  · decide

/-- C1 amended: `isActiveInMonth r d` is true iff the active flag is null
or 1, the billing cycle (defaulting to "monthly" when absent or blank)
lower-cases to exactly "monthly", the start date is absent or at most the
last day of `d`'s month, and the end date is absent or at least the first
day of `d`'s month.  Boundary inclusion as claimed: for a record that is
active in month `d` with no start constraint, setting the start date to
the last day of the month keeps it active, and setting it one day later
makes it inactive. -/
theorem C1_isActiveInMonth_amended (r : RecRow) (d : CalDate) :
    isActiveInMonth r d = claimActiveInMonthBlank r d ∧
    (d.Valid →
      isActiveInMonth { r with start_date := none } d = true →
      isActiveInMonth { r with start_date := some (lastOfMonth d) } d = true ∧
      isActiveInMonth { r with start_date := some (nextDay (lastOfMonth d)) } d
        = false) := by
  constructor
  · cases hb : r.billing_cycle with
    | none => simp [isActiveInMonth, claimActiveInMonthBlank, hb]
    | some s =>
      by_cases hs : s = ""
      · simp [isActiveInMonth, claimActiveInMonthBlank, hb, hs]
      · simp [isActiveInMonth, claimActiveInMonthBlank, hb, hs]
  · intro hv hbase
    obtain ⟨hm, hd1, hd2⟩ := hv
    have hlast := lastOfMonth_eq d hm
    have hnext := nextDay_of_last d.year d.month hm
    have hbd : (1 : Nat) ≤ daysInMonth d.year d.month := by
      have := daysInMonth_ge d.year d.month
      omega
    simp only [isActiveInMonth] at hbase ⊢
    simp only [Bool.and_eq_true] at hbase
    obtain ⟨⟨⟨hA, hC⟩, -⟩, hB⟩ := hbase
    have hfalse : (nextDay (lastOfMonth d)).leb (lastOfMonth d) = false := by
      rw [hlast, hnext]
      have hiff := leb_iff_monthIdx (monthFirst (d.year * 12 + d.month + 1))
        ⟨d.year, d.month, daysInMonth d.year d.month⟩
        (monthFirst_month_lt _) hm rfl hbd
      rw [monthIdx_monthFirst] at hiff
      simp only [monthIdx] at hiff
      rw [Bool.eq_false_iff, Ne, hiff]
      omega
    constructor
    · simp only [Bool.and_eq_true]
      exact ⟨⟨⟨hA, hC⟩, leb_refl _⟩, hB⟩
    · simp [hfalse, hA, hC, hB]

/-- C1 witness: the amended theorem applied to a concrete record and
month (May 2024). -/
theorem C1_isActiveInMonth_amended_witness :
    isActiveInMonth ⟨some (.fin 10), none, none, none, none, none, none⟩
        ⟨2024, 4, 15⟩ =
      claimActiveInMonthBlank ⟨some (.fin 10), none, none, none, none, none, none⟩
        ⟨2024, 4, 15⟩ ∧
    isActiveInMonth
        ⟨some (.fin 10), none, none, some (lastOfMonth ⟨2024, 4, 15⟩), none,
          none, none⟩ ⟨2024, 4, 15⟩ = true ∧
    isActiveInMonth
        ⟨some (.fin 10), none, none, some (nextDay (lastOfMonth ⟨2024, 4, 15⟩)),
          none, none, none⟩ ⟨2024, 4, 15⟩ = false := by
  have h := C1_isActiveInMonth_amended
    ⟨some (.fin 10), none, none, none, none, none, none⟩ ⟨2024, 4, 15⟩
  have h2 := h.2 (by decide) (by decide)
  exact ⟨h.1, h2.1, h2.2⟩

/-- C5 counterexample: an infinite stored amount is truthy, so the
trailing `|| 0` keeps it; `rowAmount` returns the infinity while the
claimed rule ("not a finite number ⇒ 0") returns 0. -/
theorem C5_infinite_amount_cex :
    rowAmount ⟨some .inf, none, none, none, none, none, none⟩ = JNum.inf ∧
    claimEffectiveAmount ⟨some .inf, none, none, none, none, none, none⟩ =
      JNum.fin 0 ∧
    rowAmount ⟨some .inf, none, none, none, none, none, none⟩ ≠
      claimEffectiveAmount ⟨some .inf, none, none, none, none, none, none⟩ := by
  refine ⟨rfl, rfl, by decide⟩

theorem truthy_fallback_eq_nan_fallback (n : JNum) :
    (if truthyNum n then n else JNum.fin 0) = (if n = .nan then JNum.fin 0 else n) := by
  cases n with
  | fin q => by_cases hq : q = 0 <;> simp [truthyNum, hq]
  | nan => simp [truthyNum]
  | inf => simp [truthyNum]
  | ninf => simp [truthyNum]

theorem optOrZero_mul_spec (x y : Option JNum) :
    (if truthyNum (jsMul (optOrZero x) (optOrZero y)) then
        jsMul (optOrZero x) (optOrZero y) else JNum.fin 0) =
    (if jsMul (x.getD (.fin 0)) (y.getD (.fin 0)) = .nan then JNum.fin 0
      else jsMul (x.getD (.fin 0)) (y.getD (.fin 0))) := by
  have hx : optOrZero x =
      (if x.getD (.fin 0) = .nan then JNum.fin 0 else x.getD (.fin 0)) := by
    cases x with
    | none => simp [optOrZero]
    | some n => simpa [optOrZero, Option.getD] using truthy_fallback_eq_nan_fallback n
  have hy : optOrZero y =
      (if y.getD (.fin 0) = .nan then JNum.fin 0 else y.getD (.fin 0)) := by
    cases y with
    | none => simp [optOrZero]
    | some n => simpa [optOrZero, Option.getD] using truthy_fallback_eq_nan_fallback n
  rw [truthy_fallback_eq_nan_fallback, hx, hy]
  generalize x.getD (.fin 0) = a
  generalize y.getD (.fin 0) = b
  by_cases ha : a = .nan
  · cases b <;> simp [ha, jsMul, truthyNum, zero_mul]
  · by_cases hb : b = .nan
    · cases a with
      | fin q => simp [ha, hb, jsMul, mul_zero]
      | nan => simp_all
      | inf => simp [ha, hb, jsMul]
      | ninf => simp [ha, hb, jsMul]
    · simp [ha, hb]

/-- C5 amended: `rowAmount r` returns the numeric image of `r.amount` when
non-null, else quantity times unit amount with absent (or falsy) fields
defaulting to 0; a NaN result is replaced by 0, and any other result —
including infinities — is returned unchanged. -/
theorem C5_rowAmount_amended (r : RecRow) :
    rowAmount r = claimEffectiveAmountNaN r := by
  unfold rowAmount claimEffectiveAmountNaN
  cases ham : r.amount with
  | some a =>
    simp only [ham]
    exact truthy_fallback_eq_nan_fallback a
  | none =>
    simp only [ham]
    exact optOrZero_mul_spec r.quantity r.unit_amount

/-- C6: the dashboard's activeClients count keeps exactly the client
records whose trimmed, lower-cased status is not in
{inactive, archived, closed}; null or blank status counts as active, and
a status that is "archived" in any casing is excluded. -/
theorem C6_activeClients (statuses : List (Option String)) :
    activeClientsCount statuses = (statuses.filter claimActiveClient).length ∧
    (∀ st : Option String, activeClientPred st = claimActiveClient st) ∧
    activeClientPred none = true ∧
    activeClientPred (some "") = true ∧
    (∀ s : String, lowerStr s = "archived" → activeClientPred (some s) = false) := by
  have hpred : ∀ st : Option String, activeClientPred st = claimActiveClient st := by
    intro st
    cases st with
    | none => decide
    | some s =>
      by_cases ht : trimSpaces (lowerStr s) = ""
      · simp [activeClientPred, claimActiveClient, sqlNormStatus, ht]
      · simp [activeClientPred, claimActiveClient, sqlNormStatus, ht]
  refine ⟨?_, hpred, by decide, by decide, ?_⟩
  · unfold activeClientsCount
    congr 1
    exact List.filter_congr (fun st _ => hpred st)
  · intro s hs
    simp [activeClientPred, sqlNormStatus, hs,
      show trimSpaces "archived" = "archived" from by decide]

/-- C6 witness: the theorem applied to a concrete client table and to the
status "ArCHiVed". -/
theorem C6_activeClients_witness :
    activeClientsCount [none, some "", some "Active", some "ARCHIVED", some " closed "]
      = (([none, some "", some "Active", some "ARCHIVED", some " closed "] :
          List (Option String)).filter claimActiveClient).length ∧
    activeClientPred (some "ArCHiVed") = false := by
  have h := C6_activeClients [none, some "", some "Active", some "ARCHIVED", some " closed "]
  exact ⟨h.1, h.2.2.2.2 "ArCHiVed" (by decide)⟩

/-- C7: if any of the six storage fetches fails, the dashboard handler
returns the single 500 error response, which by construction carries no
dashboard fields; each fetch outcome is consulted at most once, so no
retry can occur. -/
theorem C7_failure_aborts (now : CalDate) (q : QueryOutcomes)
    (h : (∃ e, q.oneoffYTD = .error e) ∨ (∃ e, q.oneoffThisMonth = .error e) ∨
      (∃ e, q.draftsTotal = .error e) ∨ (∃ e, q.recurringRows = .error e) ∨
      (∃ e, q.activeClients = .error e) ∨ (∃ e, q.openTasks = .error e)) :
    ∃ e, dashboardHandler now q = .serverError 500 e := by
  obtain ⟨a, b, c, d2, e2, f⟩ := q
  simp only at h
  unfold dashboardHandler
  rcases a with ea | va
  · exact ⟨ea, rfl⟩
  rcases b with eb | vb
  · exact ⟨eb, rfl⟩
  rcases c with ec | vc
  · exact ⟨ec, rfl⟩
  rcases d2 with ed | vd
  · exact ⟨ed, rfl⟩
  rcases e2 with ee | ve
  · exact ⟨ee, rfl⟩
  rcases f with ef | vf
  · exact ⟨ef, rfl⟩
  exfalso
  rcases h with ⟨e, he⟩ | ⟨e, he⟩ | ⟨e, he⟩ | ⟨e, he⟩ | ⟨e, he⟩ | ⟨e, he⟩ <;>
    simp at he

/-- C7 witness: the theorem applied to an outcome set whose first query
failed. -/
theorem C7_failure_aborts_witness :
    ∃ e, dashboardHandler ⟨2024, 5, 15⟩
      ⟨.error "storage down", .ok (.fin 0), .ok (.fin 0), .ok [], .ok 0, .ok 0⟩
      = .serverError 500 e := by
  exact C7_failure_aborts ⟨2024, 5, 15⟩
    ⟨.error "storage down", .ok (.fin 0), .ok (.fin 0), .ok [], .ok 0, .ok 0⟩
    (Or.inl ⟨"storage down", rfl⟩)

theorem putUpdatePlan_applied (allowed : List String)
    (body : List (String × JVal)) (upd : List (String × JVal))
    (h : putUpdatePlan allowed body = .applied upd) :
    upd = buildUpdate allowed body := by
  simp only [putUpdatePlan] at h
  split_ifs at h
  all_goals first
    | simp_all
    | (injection h with h2; exact h2.symm)

theorem bodyGet_none_no_entry (body : List (String × JVal)) (col : String)
    (hnone : bodyGet body col = none) :
    ∀ kv ∈ body, ¬ ((kv.1 == col) = true) := by
  intro kv hkv
  unfold bodyGet at hnone
  rw [Option.map_eq_none'] at hnone
  rw [List.find?_eq_none] at hnone
  exact hnone kv (List.mem_reverse.mpr hkv)

/-- C9: a PUT on the recurring sales endpoint is a partial update with the
same shape as one-off sales: both endpoints run the same handler body over
their allow-list; whenever a successful update changes a column, that
column is in the recurring allow-list and was supplied in the request
body; and every column not supplied in the body keeps its stored value. -/
theorem C9_recurring_put_partial (body : List (String × JVal))
    (stored : String → JVal) :
    recurringPut body stored = putRespond recurringAllowedFields body stored ∧
    oneoffPut body stored = putRespond oneoffAllowedFields body stored ∧
    (∀ col : String, (recurringPut body stored).2 col ≠ stored col →
      col ∈ recurringAllowedFields ∧ ∃ v, (col, v) ∈ body) ∧
    (∀ col : String, bodyGet body col = none →
      (recurringPut body stored).2 col = stored col) := by
  refine ⟨rfl, rfl, ?_, ?_⟩
  · intro col hcol
    unfold recurringPut putRespond at hcol
    cases hplan : putUpdatePlan recurringAllowedFields body with
    | badRequest m =>
      rw [hplan] at hcol
      simp at hcol
    | applied upd =>
      rw [hplan] at hcol
      have hupd := putUpdatePlan_applied _ _ _ hplan
      subst hupd
      simp only [applyUpdate] at hcol
      cases hfind : (buildUpdate recurringAllowedFields body).reverse.find?
          (fun kv => kv.1 == col) with
      | none =>
        rw [hfind] at hcol
        simp at hcol
      | some kv =>
        rw [hfind] at hcol
        have hkvmem := List.mem_of_find?_eq_some hfind
        have hkveq : (kv.1 == col) = true := (List.find?_eq_some.mp hfind).1
        rw [List.mem_reverse] at hkvmem
        unfold buildUpdate at hkvmem
        rw [List.mem_map] at hkvmem
        obtain ⟨kv0, hkv0mem, hkv0eq⟩ := hkvmem
        rw [List.mem_filter] at hkv0mem
        obtain ⟨hkv0body, hkv0allowed⟩ := hkv0mem
        have hcol1 : kv.1 = col := by simpa using hkveq
        have hkey : kv0.1 = kv.1 := by
          rw [← hkv0eq]
        rw [hcol1] at hkey
        constructor
        · rw [← hkey]
          simpa using hkv0allowed
        · refine ⟨kv0.2, ?_⟩
          rw [← hkey]
          exact hkv0body
  · intro col hnone
    have hno := bodyGet_none_no_entry body col hnone
    unfold recurringPut putRespond
    cases hplan : putUpdatePlan recurringAllowedFields body with
    | badRequest m => rfl
    | applied upd =>
      have hupd := putUpdatePlan_applied _ _ _ hplan
      subst hupd
      simp only [applyUpdate]
      have hfind : (buildUpdate recurringAllowedFields body).reverse.find?
          (fun kv => kv.1 == col) = none := by
        rw [List.find?_eq_none]
        intro kv hkv
        rw [List.mem_reverse] at hkv
        unfold buildUpdate at hkv
        rw [List.mem_map] at hkv
        obtain ⟨kv0, hmem0, heq0⟩ := hkv
        rw [List.mem_filter] at hmem0
        have hkey : kv0.1 = kv.1 := by rw [← heq0]
        rw [← hkey]
        exact hno kv0 hmem0.1
      rw [hfind]

/-- C9 witness: the theorem applied to a concrete body updating `amount`
of a concrete stored record: `amount` is allow-listed and supplied, and
the unsupplied column `notes` keeps its stored value. -/
theorem C9_recurring_put_partial_witness :
    ("amount" ∈ recurringAllowedFields ∧
      ∃ v, (("amount" : String), v) ∈
        [(("id" : String), JVal.num (.fin 1)), (("amount" : String), JVal.num (.fin 5))]) ∧
    (recurringPut [(("id" : String), JVal.num (.fin 1)), (("amount" : String), JVal.num (.fin 5))]
        (fun _ => JVal.null)).2 "notes" = (fun _ => JVal.null : String → JVal) "notes" := by
  have h := C9_recurring_put_partial
    [(("id" : String), JVal.num (.fin 1)), (("amount" : String), JVal.num (.fin 5))]
    (fun _ => JVal.null)
  refine ⟨h.2.2.1 "amount" ?_, h.2.2.2 "notes" (by decide)⟩
  decide

/-- C10: a PUT on the one-off sales endpoint whose body lacks an id, or
supplies no field of the allow-list {description, amount, sale_date,
status, quantity, unit_amount, notes}, returns status 400 and leaves the
stored record unchanged (the handler returns before any database
write). -/
theorem C10_oneoff_put_bad_request (body : List (String × JVal))
    (stored : String → JVal)
    (h : bodyGet body "id" = none ∨ ∀ kv ∈ body, kv.1 ∉ oneoffAllowedFields) :
    oneoffPut body stored = (400, stored) := by
  unfold oneoffPut putRespond putUpdatePlan
  rcases h with hid | hall
  · rw [hid]
    simp
  · cases hmatch : (match bodyGet body "id" with
      | none => false
      | some v => truthyJV v) with
    | false => simp [hmatch]
    | true =>
      have hempty : buildUpdate oneoffAllowedFields body = [] := by
        unfold buildUpdate
        rw [List.map_eq_nil_iff, List.filter_eq_nil_iff]
        intro kv hkv
        have := hall kv hkv
        simpa using this
      simp [hmatch, hempty]

/-- C10 witness: the theorem applied to a body with an id but no
allow-listed field. -/
theorem C10_oneoff_put_bad_request_witness :
    oneoffPut [(("id" : String), JVal.num (.fin 1)), (("foo" : String), JVal.str "x")]
      (fun _ => JVal.null) = (400, fun _ => JVal.null) := by
  exact C10_oneoff_put_bad_request _ _ (Or.inr (by decide))
